import Mathlib

/-!
Verification development for the transactional state layer of an
EVM-style execution engine (journaled state, checkpoints, warm/cold
tracking) and its execution-result types.

The repository's `journaled_state.rs` declares the `JournalTr` trait, its
boundary types (`JournalCheckpoint`, `StateLoad`, `TransferError`,
`AccountLoad`) and the default accessors `code` / `code_hash`; the journal
implementation itself is not part of the sources, so the behaviour of the
journal operations is modelled from the specification (sections 3-4 and 8
of the design document).  `result.rs` is embedded directly.

Machine integers (`U256`, `u64`) are modelled as `Nat`; the one place the
value-domain bound matters (overflow of a balance addition in `transfer`)
checks `2 ^ 256` explicitly.  Addresses, storage keys, hashes and log
payloads are modelled as `Nat`; byte strings as `List Nat`.
-/

/-- State load information that contains the data and whether the account
or storage slot was cold loaded.  Mirrors `StateLoad` in
`journaled_state.rs`. -/
structure StateLoad (T : Type) where
  data : T
  is_cold : Bool
  deriving DecidableEq

/-- Returns a new `StateLoad` with the given data and cold load status.
Mirrors `StateLoad::new`. -/
def StateLoad.new {T : Type} (data : T) (is_cold : Bool) : StateLoad T :=
  { data := data, is_cold := is_cold }

/-- Maps the data of the `StateLoad` to a new value.  Mirrors
`StateLoad::map`, which is `StateLoad::new(f(self.data), self.is_cold)`. -/
def StateLoad.map {T B : Type} (s : StateLoad T) (f : T → B) : StateLoad B :=
  StateLoad.new (f s.data) s.is_cold

/-- Transfer and creation result.  Mirrors `TransferError` in
`journaled_state.rs`. -/
inductive TransferError where
  | OutOfFunds
  | OverflowPayment
  | CreateCollision
  deriving DecidableEq

/-- SubRoutine checkpoint.  Mirrors `JournalCheckpoint` in
`journaled_state.rs`: `log_i` is the emitted-log length at issuance and
`journal_i` the journal-log length at issuance. -/
structure JournalCheckpoint where
  log_i : Nat
  journal_i : Nat
  deriving DecidableEq

/-- Output of a transaction execution.  Mirrors `Output` in `result.rs`;
byte strings are `List Nat` and addresses are `Nat`. -/
inductive Output where
  | Call (data : List Nat)
  | Create (data : List Nat) (address : Option Nat)
  deriving DecidableEq

/-- Reason a transaction successfully completed.  Mirrors `SuccessReason`
in `result.rs`. -/
inductive SuccessReason where
  | Stop
  | Return
  | SelfDestruct
  deriving DecidableEq

/-- Result of a transaction execution.  Mirrors `ExecutionResult` in
`result.rs`, generic over the halt-reason type; `u64` gas counters are
`Nat` and logs are `Nat` payloads. -/
inductive ExecutionResult (H : Type) where
  | Success (reason : SuccessReason) (gas_used : Nat) (gas_refunded : Nat)
      (logs : List Nat) (output : Output)
  | Revert (gas_used : Nat) (output : List Nat)
  | Halt (reason : H) (gas_used : Nat)

/-- Mirrors `ExecutionResult::map_haltreason`: applies `op` to the reason
of a `Halt` variant and rebuilds the other variants unchanged. -/
def ExecutionResult.map_haltreason {H O : Type} (r : ExecutionResult H)
    (op : H → O) : ExecutionResult O :=
  match r with
  | .Success reason gas_used gas_refunded logs output =>
      .Success reason gas_used gas_refunded logs output
  | .Revert gas_used output => .Revert gas_used output
  | .Halt reason gas_used => .Halt (op reason) gas_used

/-- Mirrors `ExecutionResult::is_success`. -/
def ExecutionResult.is_success {H : Type} (r : ExecutionResult H) : Bool :=
  match r with
  | .Success _ _ _ _ _ => true
  | _ => false

/-- Mirrors `ExecutionResult::is_halt`. -/
def ExecutionResult.is_halt {H : Type} (r : ExecutionResult H) : Bool :=
  match r with
  | .Halt _ _ => true
  | _ => false

/-- Mirrors `ExecutionResult::gas_used`, which reads the `gas_used` field
of whichever variant is present. -/
def ExecutionResult.gas_used {H : Type} (r : ExecutionResult H) : Nat :=
  match r with
  | .Success _ gas_used _ _ _ => gas_used
  | .Revert gas_used _ => gas_used
  | .Halt _ gas_used => gas_used

/-- Pointwise update of a one-argument map: `setAt f a v` maps `a` to `v`
and agrees with `f` elsewhere. -/
def setAt {α : Type} (f : Nat → α) (a : Nat) (v : α) : Nat → α :=
  fun x => if x = a then v else f x

/-- Pointwise modification of a one-argument map at `a` by `g`. -/
def modAt {α : Type} (f : Nat → α) (a : Nat) (g : α → α) : Nat → α :=
  setAt f a (g (f a))

/-- Pointwise update of a two-argument map at the pair `(a, k)`. -/
def set2At {α : Type} (f : Nat → Nat → α) (a k : Nat) (v : α) : Nat → Nat → α :=
  fun x y => if x = a ∧ y = k then v else f x y

/-- Bytecode, modelled as its byte string (the analysed-bytecode internals
live outside the embedded sources). -/
structure Bytecode where
  bytes : List Nat
  deriving DecidableEq

/-- Mirrors `Bytecode::original_bytes`: the original byte string of the
bytecode. -/
def Bytecode.original_bytes (b : Bytecode) : List Nat :=
  b.bytes

/-- Storage slot of an account: the original value read from the database
(first value observed this transaction) and the current value.  Modelled
from the spec, section 3. -/
structure Slot where
  origValue : Nat
  presentValue : Nat
  deriving DecidableEq

/-- Account record: balance, nonce, code (optional; absent until touched),
code hash, storage, and the status flags.  Modelled from the spec,
section 3; the account map of the journal is kept total (an address never
loaded simply still holds its database-backed record), so a cache miss
followed by a database fetch returns the stored record unchanged and only
the warm-set changes. -/
structure Account where
  balance : Nat
  nonce : Nat
  code : Option Bytecode
  codeHash : Nat
  storage : Nat → Slot
  selfdestructed : Bool
  touched : Bool
  created : Bool

/-- Journal entry: a tagged record of one reversible mutation, carrying
exactly the information needed to invert it.  Modelled from the spec,
section 3 (the `AccountDestroyed` variant carries the previous destroyed
flag and the moved balance, as required by the invertibility invariant). -/
inductive JournalEntry where
  | accountWarmed (address : Nat)
  | accountTouched (address : Nat)
  | accountCreated (address : Nat)
  | accountDestroyed (address target : Nat) (wasDestroyed : Bool) (hadBalance : Nat)
  | balanceTransfer (source target : Nat) (balance : Nat)
  | balanceIncrease (address : Nat) (balance : Nat)
  | nonceChange (address : Nat)
  | codeChange (address : Nat) (prevCode : Option Bytecode) (prevHash : Nat)
  | storageWarmed (address key : Nat)
  | storageChanged (address key prevValue : Nat)
  | transientStorageChange (address key prevValue : Nat)
  | logEmitted (index : Nat)

/-- The journaled state.  Modelled from the spec, sections 2-4: account
map (cache overlay over the database, kept total), transient storage,
warm-set (addresses and slots), permanently-warm precompile addresses,
code-by-hash lookup of the database, the append-only journal log, the
emitted logs together with the number of logs belonging to already
committed transactions (log draining is scoped per transaction boundary,
section 9), the call depth and the transaction counter. -/
structure Journal where
  accounts : Nat → Account
  transient : Nat → Nat → Nat
  warmAccounts : Nat → Bool
  warmSlots : Nat → Nat → Bool
  precompiles : Nat → Bool
  codeByHash : Nat → Bytecode
  journal : List JournalEntry
  logs : List Nat
  committedLogs : Nat
  depth : Nat
  txId : Nat

/-- An address is warm when it is in the per-transaction warm-set or is a
permanently-warm precompile.  Modelled from the spec, sections 3 and 4.1. -/
def Journal.isWarm (s : Journal) (a : Nat) : Bool :=
  s.warmAccounts a || s.precompiles a

/-- Modelled from the spec, section 4.1 (`load_account`): on first
reference the address is cold — the record is fetched (here: already held
by the total account map), the address is marked warm and an
`AccountWarmed` entry is appended; subsequent references are warm and have
no side effect.  Returns the account and the cold flag. -/
def load_account (a : Nat) (s : Journal) : StateLoad Account × Journal :=
  if s.isWarm a then
    (StateLoad.new (s.accounts a) false, s)
  else
    (StateLoad.new (s.accounts a) true,
      { s with warmAccounts := setAt s.warmAccounts a true,
               journal := s.journal ++ [JournalEntry.accountWarmed a] })

/-- Modelled from the spec, section 4.1 (`load_account_code`): same as
`load_account` but additionally guarantees the code field is populated,
fetching the bytecode from the database by hash if it is absent. -/
def load_account_code (a : Nat) (s : Journal) : StateLoad Account × Journal :=
  let r := load_account a s
  match r.1.data.code with
  | some _ => r
  | none =>
      let acc := { r.1.data with code := some (s.codeByHash r.1.data.codeHash) }
      (StateLoad.new acc r.1.is_cold,
        { r.2 with accounts := setAt r.2.accounts a acc })

/-- Modelled from the spec, section 4.2: warming of a storage slot on
first access within the transaction, appending a `StorageWarmed` entry. -/
def slotWarmStep (a k : Nat) (t : Journal) : Journal :=
  if t.warmSlots a k then t
  else
    { t with warmSlots := set2At t.warmSlots a k true,
             journal := t.journal ++ [JournalEntry.storageWarmed a k] }

/-- Modelled from the spec, section 4.2 (`sload`): loads the account
(warming it if needed), then the slot; a cold slot is warmed with a
`StorageWarmed` entry.  Returns the current slot value and the slot's
cold flag. -/
def sload (a k : Nat) (s : Journal) : StateLoad Nat × Journal :=
  let s₁ := (load_account a s).2
  let s₂ := slotWarmStep a k s₁
  (StateLoad.new (((s₂.accounts a).storage k).presentValue) (!(s₁.warmSlots a k)), s₂)

/-- Shape of the `sstore` result consumed by the gas model: original
value, current value before the write, and the new value.  Modelled from
the spec, section 4.2. -/
structure SStoreResult where
  originalValue : Nat
  presentValue : Nat
  newValue : Nat
  deriving DecidableEq

/-- Modelled from the spec, section 4.2: the write step of `sstore` —
replaces the current slot value and appends a `StorageChanged` entry
carrying the previous current value only. -/
def sstoreStep (a k v : Nat) (t : Journal) : Journal :=
  { t with
      accounts := modAt t.accounts a (fun acc =>
        { acc with storage := modAt acc.storage k (fun sl => { sl with presentValue := v }) }),
      journal := t.journal ++ [JournalEntry.storageChanged a k (((t.accounts a).storage k).presentValue)] }

/-- Modelled from the spec, section 4.2 (`sstore`): loads the slot as in
`sload`, then writes the new value, journaling the previous current
value.  Returns the original/present/new triple and the slot's cold
flag. -/
def sstore (a k v : Nat) (s : Journal) : StateLoad SStoreResult × Journal :=
  let r := sload a k s
  let slot := (r.2.accounts a).storage k
  (StateLoad.new { originalValue := slot.origValue, presentValue := slot.presentValue, newValue := v }
      r.1.is_cold,
    sstoreStep a k v r.2)

/-- Modelled from the spec, section 4.2 (`tload`): reads the transient
map. -/
def tload (a k : Nat) (s : Journal) : Nat :=
  s.transient a k

/-- Modelled from the spec, section 4.2 (`tstore`): writes the transient
map, journaling the previous value so a reverted sub-call also reverts
transient writes. -/
def tstore (a k v : Nat) (s : Journal) : Journal :=
  { s with transient := set2At s.transient a k v,
           journal := s.journal ++ [JournalEntry.transientStorageChange a k (s.transient a k)] }

/-- Modelled from the spec, sections 3 and 4.5 (`log`): appends the log
and a `LogEmitted` entry carrying its index. -/
def logOp (l : Nat) (s : Journal) : Journal :=
  { s with logs := s.logs ++ [l],
           journal := s.journal ++ [JournalEntry.logEmitted s.logs.length] }

/-- Modelled from the spec (`touch_account`): marks the account touched,
journaling the transition the first time only. -/
def touch_account (a : Nat) (s : Journal) : Journal :=
  if (s.accounts a).touched then s
  else
    { s with accounts := modAt s.accounts a (fun acc => { acc with touched := true }),
             journal := s.journal ++ [JournalEntry.accountTouched a] }

/-- Modelled from the spec, section 4.4: marking a new account
`AccountCreated` (the creation-collision check guarantees the flag was
not already set, so the transition is journaled exactly once). -/
def mark_created (a : Nat) (s : Journal) : Journal :=
  if (s.accounts a).created then s
  else
    { s with accounts := modAt s.accounts a (fun acc => { acc with created := true }),
             journal := s.journal ++ [JournalEntry.accountCreated a] }

/-- Modelled from the spec, section 4.3: the nonce-bump variant appends a
single-sided `NonceBumped` entry while incrementing the nonce. -/
def nonce_bump (a : Nat) (s : Journal) : Journal :=
  { s with accounts := modAt s.accounts a (fun acc => { acc with nonce := acc.nonce + 1 }),
           journal := s.journal ++ [JournalEntry.nonceChange a] }

/-- Modelled from the spec, section 4.3 (`balance_incr`): increments the
balance, appending a single-sided `BalanceIncreased` entry. -/
def balance_incr (a v : Nat) (s : Journal) : Journal :=
  { s with accounts := modAt s.accounts a (fun acc => { acc with balance := acc.balance + v }),
           journal := s.journal ++ [JournalEntry.balanceIncrease a v] }

/-- Modelled from the spec, section 4.3 (`set_code_with_hash`): replaces
code and hash, journaling the previous pair. -/
def set_code_with_hash (a : Nat) (c : Bytecode) (h : Nat) (s : Journal) : Journal :=
  { s with
      accounts := modAt s.accounts a (fun acc => { acc with code := some c, codeHash := h }),
      journal := s.journal ++ [JournalEntry.codeChange a ((s.accounts a).code) ((s.accounts a).codeHash)] }

/-- The `U256` value domain bound used by the overflow check of
`transfer`. -/
def uint256Bound : Nat := 2 ^ 256

/-- Modelled from the spec, section 4.3 (`transfer`): fails with
`OutOfFunds` when the source balance is below the amount and with
`OverflowPayment` when the target balance would leave the value domain,
leaving the state unchanged in both cases; otherwise decrements the
source, increments the target and appends one `BalanceTransferred`
entry. -/
def transfer (source target amount : Nat) (s : Journal) :
    Option TransferError × Journal :=
  if (s.accounts source).balance < amount then
    (some TransferError.OutOfFunds, s)
  else
    let s₁ := { s with accounts := (modAt s.accounts source
        (fun acc => { acc with balance := acc.balance - amount })) }
    if uint256Bound ≤ (s₁.accounts target).balance + amount then
      (some TransferError.OverflowPayment, s)
    else
      (none,
        { s₁ with
            accounts := modAt s₁.accounts target
              (fun acc => { acc with balance := acc.balance + amount }),
            journal := s₁.journal ++ [JournalEntry.balanceTransfer source target amount] })

/-- Result of a self-destruct, as consumed by refund accounting.
Modelled from the spec, section 4.4. -/
structure SelfDestructResult where
  hadValue : Bool
  previouslyDestroyed : Bool
  deriving DecidableEq

/-- Modelled from the spec, section 4.4: the destructive step of
`selfdestruct` — moves the full balance to the target (a same-address
self-destruct zeroes the balance without moving it), marks the account
destroyed and appends an `AccountDestroyed` entry carrying the previous
flag and the moved balance. -/
def destroyStep (a target : Nat) (s : Journal) : Journal :=
  let had := (s.accounts a).balance
  let was := (s.accounts a).selfdestructed
  let acc₁ := if a = target then s.accounts
    else modAt s.accounts target (fun acc => { acc with balance := acc.balance + had })
  { s with
      accounts := modAt acc₁ a (fun acc => { acc with balance := 0, selfdestructed := true }),
      journal := s.journal ++ [JournalEntry.accountDestroyed a target was had] }

/-- Modelled from the spec, section 4.4 (`selfdestruct`): loads the
target (warming it), then performs the destructive step; reports whether
a balance was moved and whether the account was already destroyed, with
the target's cold flag. -/
def selfdestruct (a target : Nat) (s : Journal) : StateLoad SelfDestructResult × Journal :=
  let r := load_account target s
  (StateLoad.new
      { hadValue := decide ((r.2.accounts a).balance ≠ 0),
        previouslyDestroyed := (r.2.accounts a).selfdestructed }
      r.1.is_cold,
    destroyStep a target r.2)

/-- Modelled from the spec, section 4.5: the inverse operation of one
journal entry, applied to the account map, warm-set, transient map and
emitted logs. -/
def revertEntry (e : JournalEntry) (s : Journal) : Journal :=
  match e with
  | .accountWarmed a =>
      { s with warmAccounts := setAt s.warmAccounts a false }
  | .accountTouched a =>
      { s with accounts := modAt s.accounts a (fun acc => { acc with touched := false }) }
  | .accountCreated a =>
      { s with accounts := modAt s.accounts a (fun acc => { acc with created := false }) }
  | .accountDestroyed a target was had =>
      let acc₁ := if a = target then s.accounts
        else modAt s.accounts target (fun acc => { acc with balance := acc.balance - had })
      { s with accounts := (modAt acc₁ a
          (fun acc => { acc with balance := acc.balance + had, selfdestructed := was })) }
  | .balanceTransfer source target amount =>
      let acc₁ := modAt s.accounts target (fun acc => { acc with balance := acc.balance - amount })
      { s with accounts := modAt acc₁ source (fun acc => { acc with balance := acc.balance + amount }) }
  | .balanceIncrease a v =>
      { s with accounts := modAt s.accounts a (fun acc => { acc with balance := acc.balance - v }) }
  | .nonceChange a =>
      { s with accounts := modAt s.accounts a (fun acc => { acc with nonce := acc.nonce - 1 }) }
  | .codeChange a c h =>
      { s with accounts := modAt s.accounts a (fun acc => { acc with code := c, codeHash := h }) }
  | .storageWarmed a k =>
      { s with warmSlots := set2At s.warmSlots a k false }
  | .storageChanged a k prev =>
      { s with accounts := modAt s.accounts a (fun acc =>
          { acc with storage := modAt acc.storage k (fun sl => { sl with presentValue := prev }) }) }
  | .transientStorageChange a k prev =>
      { s with transient := set2At s.transient a k prev }
  | .logEmitted i =>
      { s with logs := s.logs.take i }

/-- Applies the inverse operations of a list of journal entries in strict
reverse order (LIFO).  Modelled from the spec, section 4.5. -/
def undo (es : List JournalEntry) (s : Journal) : Journal :=
  es.foldr revertEntry s

/-- Modelled from the spec, section 4.5 (`checkpoint`): captures the
journal length and the emitted-log length, increments the depth and
returns the token. -/
def checkpoint (s : Journal) : JournalCheckpoint × Journal :=
  ({ log_i := s.logs.length, journal_i := s.journal.length },
    { s with depth := s.depth + 1 })

/-- Modelled from the spec, section 4.5 (`checkpoint_commit`): decrements
the depth and discards nothing. -/
def checkpoint_commit (s : Journal) : Journal :=
  { s with depth := s.depth - 1 }

/-- Modelled from the spec, section 4.5 (`checkpoint_revert`): applies
the inverse of every entry appended after the checkpoint in reverse
order, truncates the journal and the emitted logs back to the recorded
lengths, and decrements the depth. -/
def checkpoint_revert (c : JournalCheckpoint) (s : Journal) : Journal :=
  let s₁ := undo (s.journal.drop c.journal_i) s
  { s₁ with journal := s.journal.take c.journal_i,
            logs := s₁.logs.take c.log_i,
            depth := s₁.depth - 1 }

/-- Modelled from the spec, section 4.6 (`commit_tx`): clears the journal
log, keeps the account map and the emitted logs (recording them as
committed), increments the transaction counter, clears the
per-transaction warm-set and the transient map. -/
def commit_tx (s : Journal) : Journal :=
  { s with journal := [],
           committedLogs := s.logs.length,
           transient := fun _ _ => 0,
           warmAccounts := fun _ => false,
           warmSlots := fun _ _ => false,
           txId := s.txId + 1 }

/-- Modelled from the spec, section 4.6 and the `discard_tx` doc comment
of `journaled_state.rs`: reverts every entry since the last commit,
discards the current transaction's journal and logs, clears the
per-transaction warm-set and the transient map, resets the depth and
increments the transaction id. -/
def discard_tx (s : Journal) : Journal :=
  let u := undo s.journal s
  { accounts := u.accounts,
    transient := fun _ _ => 0,
    warmAccounts := fun _ => false,
    warmSlots := fun _ _ => false,
    precompiles := s.precompiles,
    codeByHash := s.codeByHash,
    journal := [],
    logs := u.logs.take s.committedLogs,
    committedLogs := s.committedLogs,
    depth := 0,
    txId := s.txId + 1 }

/-- Modelled from the spec (`warm_precompiles`): registers permanently
warm precompile addresses. -/
def warm_precompiles (addresses : List Nat) (s : Journal) : Journal :=
  { s with precompiles := fun a => s.precompiles a || addresses.contains a }

/-- One state mutation of the journal, as available to an execution frame
between `checkpoint` and `checkpoint_revert` (spec, section 4; code
population by `load_account_code` is a cache fill from the database, not
a state mutation, and the transaction-boundary operations are not frame
operations). -/
inductive JOp where
  | load (address : Nat)
  | sloadOp (address key : Nat)
  | sstoreOp (address key value : Nat)
  | tstoreOp (address key value : Nat)
  | logO (payload : Nat)
  | touch (address : Nat)
  | create (address : Nat)
  | bump (address : Nat)
  | incr (address value : Nat)
  | setCode (address : Nat) (code : Bytecode) (hash : Nat)
  | transferOp (source target amount : Nat)
  | destroy (address target : Nat)

/-- State effect of one frame operation. -/
def applyOp (op : JOp) (s : Journal) : Journal :=
  match op with
  | .load a => (load_account a s).2
  | .sloadOp a k => (sload a k s).2
  | .sstoreOp a k v => (sstore a k v s).2
  | .tstoreOp a k v => tstore a k v s
  | .logO l => logOp l s
  | .touch a => touch_account a s
  | .create a => mark_created a s
  | .bump a => nonce_bump a s
  | .incr a v => balance_incr a v s
  | .setCode a c h => set_code_with_hash a c h s
  | .transferOp x y v => (transfer x y v s).2
  | .destroy a t => (selfdestruct a t s).2

/-- State effect of a sequence of frame operations, applied left to
right. -/
def applyOps (l : List JOp) (s : Journal) : Journal :=
  l.foldl (fun st op => applyOp op st) s

/-- Whether an account is empty.  Modelled from the spec: empty means
zero balance, zero nonce and empty code ("loaded-but-empty" status). -/
def Account.is_empty (acc : Account) : Bool :=
  acc.balance == 0 && acc.nonce == 0 && (acc.code.getD { bytes := [] }).bytes.isEmpty

/-- Mirrors the default accessor `JournalTr::code` in
`journaled_state.rs`: loads the account code, unwraps the code field
(`none` marks the unwrap-panic path, which `load_account_code` is
guaranteed to avoid) and returns its original bytes with the load's cold
flag. -/
def code_accessor (a : Nat) (s : Journal) :
    Option (StateLoad (List Nat)) × Journal :=
  let r := load_account_code a s
  match r.1.data.code with
  | none => (none, r.2)
  | some c => (some (StateLoad.new c.original_bytes r.1.is_cold), r.2)

/-- Mirrors the default accessor `JournalTr::code_hash` in
`journaled_state.rs`: loads the account code; an empty account yields
hash zero (`B256::ZERO`), otherwise the unwrap of the code field (`none`
marks the panic path) is followed by the stored `code_hash`, in both
cases with the load's cold flag. -/
def code_hash_accessor (a : Nat) (s : Journal) :
    Option (StateLoad Nat) × Journal :=
  let r := load_account_code a s
  if r.1.data.is_empty then (some (StateLoad.new 0 r.1.is_cold), r.2)
  else
    match r.1.data.code with
    | none => (none, r.2)
    | some _ => (some (StateLoad.new r.1.data.codeHash r.1.is_cold), r.2)

/-- An account holding nothing, used by the concrete test states. -/
def defaultAccount : Account :=
  { balance := 0, nonce := 0, code := none, codeHash := 0,
    storage := fun _ => { origValue := 0, presentValue := 0 },
    selfdestructed := false, touched := false, created := false }

/-- A concrete journal at a fresh transaction boundary, used as the
evaluation point of the witnesses and counterexamples. -/
def testJournal : Journal :=
  { accounts := fun _ => defaultAccount,
    transient := fun _ _ => 0,
    warmAccounts := fun _ => false,
    warmSlots := fun _ _ => false,
    precompiles := fun _ => false,
    codeByHash := fun _ => { bytes := [] },
    journal := [], logs := [], committedLogs := 0, depth := 0, txId := 0 }

/-- A concrete journal whose account 0 holds balance 5, used by the
transfer witness. -/
def testJournalFunded : Journal :=
  { testJournal with accounts := setAt (fun _ => defaultAccount) 0 { defaultAccount with balance := 5 } }

/-- A journal state is at a fresh transaction boundary when the current
transaction has performed no operation: empty journal, no uncommitted
logs, cleared warm-set and transient map, and depth zero. -/
def freshBoundary (s : Journal) : Prop :=
  s.journal = [] ∧ s.committedLogs = s.logs.length ∧
    s.warmAccounts = (fun _ => false) ∧ s.warmSlots = (fun _ _ => false) ∧
    s.transient = (fun _ _ => 0) ∧ s.depth = 0

/-- A state transformer only appends to the journal log. -/
def JAppends (f : Journal → Journal) : Prop :=
  ∀ s, ∃ es, (f s).journal = s.journal ++ es

/-- A state transformer is undone exactly by replaying the inverses of
the entries it appended, in reverse order: everything is restored except
the journal log itself (truncated separately by `checkpoint_revert`) and
the depth counter (restored by the depth bookkeeping of the checkpoint
operations). -/
def JUndoes (f : Journal → Journal) : Prop :=
  ∀ s, undo ((f s).journal.drop s.journal.length) (f s)
      = { s with journal := (f s).journal, depth := (f s).depth }

/-- A reversible state transformer: appends to the journal, and replaying
the appended entries' inverses restores the state. -/
def Reversible (f : Journal → Journal) : Prop :=
  JAppends f ∧ JUndoes f

theorem setAt_apply_same {α : Type} (f : Nat → α) (a : Nat) (v : α) :
    setAt f a v a = v := by
  simp [setAt]

theorem setAt_apply_ne {α : Type} (f : Nat → α) (a : Nat) (v : α) {x : Nat}
    (h : x ≠ a) : setAt f a v x = f x := by
  simp [setAt, h]

theorem setAt_self {α : Type} (f : Nat → α) (a : Nat) :
    setAt f a (f a) = f := by
  funext x
  by_cases h : x = a <;> simp [setAt, h]

theorem setAt_setAt {α : Type} (f : Nat → α) (a : Nat) (v w : α) :
    setAt (setAt f a v) a w = setAt f a w := by
  funext x
  by_cases h : x = a <;> simp [setAt, h]

theorem modAt_apply_same {α : Type} (f : Nat → α) (a : Nat) (g : α → α) :
    modAt f a g a = g (f a) := by
  simp [modAt, setAt]

theorem modAt_modAt {α : Type} (f : Nat → α) (a : Nat) (g h : α → α) :
    modAt (modAt f a g) a h = modAt f a (fun x => h (g x)) := by
  simp [modAt, setAt_setAt, setAt_apply_same]

theorem modAt_self {α : Type} (f : Nat → α) (a : Nat) (g : α → α)
    (h : g (f a) = f a) : modAt f a g = f := by
  rw [modAt, h, setAt_self]

theorem set2At_apply_same {α : Type} (f : Nat → Nat → α) (a k : Nat) (v : α) :
    set2At f a k v a k = v := by
  simp [set2At]

theorem set2At_self {α : Type} (f : Nat → Nat → α) (a k : Nat) :
    set2At f a k (f a k) = f := by
  funext x y
  by_cases h : x = a ∧ y = k
  · obtain ⟨h1, h2⟩ := h
    subst h1; subst h2
    simp [set2At]
  · simp [set2At, h]

theorem set2At_set2At {α : Type} (f : Nat → Nat → α) (a k : Nat) (v w : α) :
    set2At (set2At f a k v) a k w = set2At f a k w := by
  funext x y
  by_cases h : x = a ∧ y = k <;> simp [set2At, h]

theorem undo_nil (s : Journal) : undo [] s = s := rfl

theorem undo_append (l₁ l₂ : List JournalEntry) (s : Journal) :
    undo (l₁ ++ l₂) s = undo l₁ (undo l₂ s) := by
  simp [undo, List.foldr_append]

theorem undo_cons (e : JournalEntry) (es : List JournalEntry) (s : Journal) :
    undo (e :: es) s = revertEntry e (undo es s) := rfl

theorem revertEntry_journal_depth (e : JournalEntry) (t : Journal)
    (j : List JournalEntry) (d : Nat) :
    revertEntry e { t with journal := j, depth := d }
      = { revertEntry e t with journal := j, depth := d } := by
  cases e <;> simp [revertEntry]

theorem undo_journal_depth (es : List JournalEntry) (t : Journal)
    (j : List JournalEntry) (d : Nat) :
    undo es { t with journal := j, depth := d }
      = { undo es t with journal := j, depth := d } := by
  induction es with
  | nil => rfl
  | cons e es ih =>
      rw [undo_cons, undo_cons, ih, revertEntry_journal_depth]

theorem reversible_id : Reversible (fun s => s) := by
  constructor
  · intro s; exact ⟨[], by simp⟩
  · intro s
    simp [List.drop_length, undo_nil]

theorem Reversible.comp {f g : Journal → Journal}
    (hf : Reversible f) (hg : Reversible g) :
    Reversible (fun s => g (f s)) := by
  obtain ⟨hfa, hfu⟩ := hf
  obtain ⟨hga, hgu⟩ := hg
  constructor
  · intro s
    obtain ⟨e₁, h₁⟩ := hfa s
    obtain ⟨e₂, h₂⟩ := hga (f s)
    exact ⟨e₁ ++ e₂, by rw [h₂, h₁, List.append_assoc]⟩
  · intro s
    obtain ⟨e₁, h₁⟩ := hfa s
    obtain ⟨e₂, h₂⟩ := hga (f s)
    have hd : (g (f s)).journal.drop s.journal.length = e₁ ++ e₂ := by
      rw [h₂, h₁, List.append_assoc, List.drop_left]
    have h₂' : undo e₂ (g (f s))
        = { f s with journal := (g (f s)).journal, depth := (g (f s)).depth } := by
      have hu := hgu (f s)
      rw [show (g (f s)).journal.drop (f s).journal.length = e₂ by rw [h₂, List.drop_left]] at hu
      exact hu
    have h₁' : undo e₁ (f s)
        = { s with journal := (f s).journal, depth := (f s).depth } := by
      have hu := hfu s
      rw [show (f s).journal.drop s.journal.length = e₁ by rw [h₁, List.drop_left]] at hu
      exact hu
    rw [hd, undo_append, h₂', undo_journal_depth, h₁']

theorem reversible_load_account (a : Nat) :
    Reversible (fun s => (load_account a s).2) := by
  constructor
  · intro s
    by_cases h : s.isWarm a
    · exact ⟨[], by simp [load_account, h]⟩
    · exact ⟨[JournalEntry.accountWarmed a], by simp [load_account, h]⟩
  · intro s
    by_cases h : s.isWarm a
    · simp [load_account, h, List.drop_length, undo_nil]
    · have hw : s.warmAccounts a = false := by
        simp only [Journal.isWarm, Bool.or_eq_true, not_or, Bool.not_eq_true] at h
        exact h.1
      have hset : setAt s.warmAccounts a false = s.warmAccounts := by
        rw [← hw, setAt_self]
      simp [load_account, h, undo, revertEntry, List.drop_left, setAt_setAt, hset]

theorem reversible_slotWarmStep (a k : Nat) :
    Reversible (fun s => slotWarmStep a k s) := by
  constructor
  · intro s
    by_cases h : s.warmSlots a k
    · exact ⟨[], by simp [slotWarmStep, h]⟩
    · exact ⟨[JournalEntry.storageWarmed a k], by simp [slotWarmStep, h]⟩
  · intro s
    by_cases h : s.warmSlots a k
    · simp [slotWarmStep, h, List.drop_length, undo_nil]
    · have hw : s.warmSlots a k = false := by
        simpa using h
      have hset : set2At s.warmSlots a k false = s.warmSlots := by
        rw [← hw, set2At_self]
      simp [slotWarmStep, h, undo, revertEntry, List.drop_left, set2At_set2At, hset]

theorem sload_state (a k : Nat) (s : Journal) :
    (sload a k s).2 = slotWarmStep a k ((load_account a s).2) := rfl

theorem reversible_sload (a k : Nat) :
    Reversible (fun s => (sload a k s).2) :=
  Reversible.comp (reversible_load_account a) (reversible_slotWarmStep a k)

theorem reversible_tstore (a k v : Nat) :
    Reversible (fun s => tstore a k v s) := by
  constructor
  · intro s
    exact ⟨[JournalEntry.transientStorageChange a k (s.transient a k)],
      by simp [tstore]⟩
  · intro s
    simp [tstore, undo, revertEntry, List.drop_left, set2At_set2At, set2At_self]

theorem reversible_logOp (l : Nat) :
    Reversible (fun s => logOp l s) := by
  constructor
  · intro s
    exact ⟨[JournalEntry.logEmitted s.logs.length], by simp [logOp]⟩
  · intro s
    simp [logOp, undo, revertEntry, List.drop_left, List.take_left]

theorem modAt_comm {α : Type} (f : Nat → α) {a b : Nat} (g h : α → α)
    (hab : a ≠ b) :
    modAt (modAt f a g) b h = modAt (modAt f b h) a g := by
  funext x
  by_cases hxa : x = a
  · subst hxa
    simp [modAt, setAt, hab, Ne.symm hab]
  · by_cases hxb : x = b
    · subst hxb
      simp [modAt, setAt, hab, Ne.symm hab]
    · simp [modAt, setAt, hxa, hxb]

theorem modAt_storage_cancel (S : Nat → Slot) (k v : Nat) :
    modAt (modAt S k (fun sl => { sl with presentValue := v })) k
      (fun sl => { sl with presentValue := (S k).presentValue }) = S := by
  rw [modAt_modAt]
  apply modAt_self
  rfl

theorem reversible_sstoreStep (a k v : Nat) :
    Reversible (fun s => sstoreStep a k v s) := by
  constructor
  · intro s
    exact ⟨[JournalEntry.storageChanged a k (((s.accounts a).storage k).presentValue)],
      by simp [sstoreStep]⟩
  · intro s
    have hacc : modAt (modAt s.accounts a (fun acc =>
        { acc with storage := modAt acc.storage k (fun sl => { sl with presentValue := v }) })) a
        (fun acc => { acc with storage := (modAt acc.storage k
          (fun sl => { sl with presentValue := ((s.accounts a).storage k).presentValue })) })
        = s.accounts := by
      rw [modAt_modAt]
      apply modAt_self
      show ({ s.accounts a with storage := (modAt (modAt (s.accounts a).storage k
          (fun sl => { sl with presentValue := v })) k
          (fun sl => { sl with presentValue := ((s.accounts a).storage k).presentValue })) } : Account)
        = s.accounts a
      rw [modAt_storage_cancel]
    simp [sstoreStep, undo, revertEntry, List.drop_left, hacc]

theorem sstore_state (a k v : Nat) (s : Journal) :
    (sstore a k v s).2 = sstoreStep a k v ((sload a k s).2) := rfl

theorem reversible_sstore (a k v : Nat) :
    Reversible (fun s => (sstore a k v s).2) :=
  Reversible.comp (reversible_sload a k) (reversible_sstoreStep a k v)

theorem reversible_touch_account (a : Nat) :
    Reversible (fun s => touch_account a s) := by
  constructor
  · intro s
    by_cases h : (s.accounts a).touched
    · exact ⟨[], by simp [touch_account, h]⟩
    · exact ⟨[JournalEntry.accountTouched a], by simp [touch_account, h]⟩
  · intro s
    by_cases h : (s.accounts a).touched
    · simp [touch_account, h, List.drop_length, undo_nil]
    · have h' : (s.accounts a).touched = false := by simpa using h
      have hacc : modAt (modAt s.accounts a (fun acc => { acc with touched := true })) a
          (fun acc => { acc with touched := false }) = s.accounts := by
        rw [modAt_modAt]
        apply modAt_self
        rw [← h']
      simp [touch_account, h, undo, revertEntry, List.drop_left, hacc]

theorem reversible_mark_created (a : Nat) :
    Reversible (fun s => mark_created a s) := by
  constructor
  · intro s
    by_cases h : (s.accounts a).created
    · exact ⟨[], by simp [mark_created, h]⟩
    · exact ⟨[JournalEntry.accountCreated a], by simp [mark_created, h]⟩
  · intro s
    by_cases h : (s.accounts a).created
    · simp [mark_created, h, List.drop_length, undo_nil]
    · have h' : (s.accounts a).created = false := by simpa using h
      have hacc : modAt (modAt s.accounts a (fun acc => { acc with created := true })) a
          (fun acc => { acc with created := false }) = s.accounts := by
        rw [modAt_modAt]
        apply modAt_self
        rw [← h']
      simp [mark_created, h, undo, revertEntry, List.drop_left, hacc]

theorem reversible_nonce_bump (a : Nat) :
    Reversible (fun s => nonce_bump a s) := by
  constructor
  · intro s
    exact ⟨[JournalEntry.nonceChange a], by simp [nonce_bump]⟩
  · intro s
    have hacc : modAt (modAt s.accounts a (fun acc => { acc with nonce := acc.nonce + 1 })) a
        (fun acc => { acc with nonce := acc.nonce - 1 }) = s.accounts := by
      rw [modAt_modAt]
      apply modAt_self
      simp
    simp [nonce_bump, undo, revertEntry, List.drop_left, hacc]

theorem reversible_balance_incr (a v : Nat) :
    Reversible (fun s => balance_incr a v s) := by
  constructor
  · intro s
    exact ⟨[JournalEntry.balanceIncrease a v], by simp [balance_incr]⟩
  · intro s
    have hacc : modAt (modAt s.accounts a (fun acc => { acc with balance := acc.balance + v })) a
        (fun acc => { acc with balance := acc.balance - v }) = s.accounts := by
      rw [modAt_modAt]
      apply modAt_self
      simp
    simp [balance_incr, undo, revertEntry, List.drop_left, hacc]

theorem reversible_set_code_with_hash (a : Nat) (c : Bytecode) (h : Nat) :
    Reversible (fun s => set_code_with_hash a c h s) := by
  constructor
  · intro s
    exact ⟨[JournalEntry.codeChange a ((s.accounts a).code) ((s.accounts a).codeHash)],
      by simp [set_code_with_hash]⟩
  · intro s
    have hacc : modAt (modAt s.accounts a (fun acc => { acc with code := some c, codeHash := h })) a
        (fun acc => { acc with code := (s.accounts a).code, codeHash := (s.accounts a).codeHash })
        = s.accounts := by
      rw [modAt_modAt]
      apply modAt_self
      rfl
    simp [set_code_with_hash, undo, revertEntry, List.drop_left, hacc]

theorem reversible_transfer (source target amount : Nat) :
    Reversible (fun s => (transfer source target amount s).2) := by
  constructor
  · intro s
    by_cases h1 : (s.accounts source).balance < amount
    · exact ⟨[], by simp [transfer, h1]⟩
    · by_cases h2 : uint256Bound ≤ ((modAt s.accounts source
          (fun acc => { acc with balance := acc.balance - amount })) target).balance + amount
      · exact ⟨[], by simp [transfer, h1, h2]⟩
      · exact ⟨[JournalEntry.balanceTransfer source target amount],
          by simp [transfer, h1, h2]⟩
  · intro s
    by_cases h1 : (s.accounts source).balance < amount
    · simp [transfer, h1, List.drop_length, undo_nil]
    · by_cases h2 : uint256Bound ≤ ((modAt s.accounts source
          (fun acc => { acc with balance := acc.balance - amount })) target).balance + amount
      · simp [transfer, h1, h2, List.drop_length, undo_nil]
      · have hle : amount ≤ (s.accounts source).balance := Nat.le_of_not_lt h1
        have hmid : modAt (modAt (modAt s.accounts source
            (fun acc => { acc with balance := acc.balance - amount })) target
            (fun acc => { acc with balance := acc.balance + amount })) target
            (fun acc => { acc with balance := acc.balance - amount })
            = modAt s.accounts source (fun acc => { acc with balance := acc.balance - amount }) := by
          rw [modAt_modAt]
          apply modAt_self
          simp
        have hacc : modAt (modAt s.accounts source
            (fun acc => { acc with balance := acc.balance - amount })) source
            (fun acc => { acc with balance := acc.balance + amount }) = s.accounts := by
          rw [modAt_modAt]
          apply modAt_self
          simp [Nat.sub_add_cancel hle]
        simp [transfer, h1, h2, undo, revertEntry, List.drop_left, hmid, hacc]

theorem reversible_destroyStep (a target : Nat) :
    Reversible (fun s => destroyStep a target s) := by
  constructor
  · intro s
    exact ⟨[JournalEntry.accountDestroyed a target ((s.accounts a).selfdestructed)
        ((s.accounts a).balance)], by simp [destroyStep]⟩
  · intro s
    by_cases hat : a = target
    · subst hat
      have hacc : modAt (modAt s.accounts a
          (fun acc => { acc with balance := 0, selfdestructed := true })) a
          (fun acc => { acc with balance := acc.balance + (s.accounts a).balance, selfdestructed := (s.accounts a).selfdestructed }) = s.accounts := by
        rw [modAt_modAt]
        apply modAt_self
        simp
      simp [destroyStep, undo, revertEntry, List.drop_left, hacc]
    · have hinner : modAt (modAt s.accounts target
          (fun acc => { acc with balance := acc.balance + (s.accounts a).balance })) target
          (fun acc => { acc with balance := acc.balance - (s.accounts a).balance })
          = s.accounts := by
        rw [modAt_modAt]
        apply modAt_self
        simp
      have h1 : modAt (modAt (modAt s.accounts target
          (fun acc => { acc with balance := acc.balance + (s.accounts a).balance })) a
          (fun acc => { acc with balance := 0, selfdestructed := true })) target
          (fun acc => { acc with balance := acc.balance - (s.accounts a).balance })
          = modAt s.accounts a (fun acc => { acc with balance := 0, selfdestructed := true }) := by
        rw [modAt_comm _ _ _ hat, hinner]
      have h2 : modAt (modAt s.accounts a
          (fun acc => { acc with balance := 0, selfdestructed := true })) a
          (fun acc => { acc with balance := acc.balance + (s.accounts a).balance, selfdestructed := (s.accounts a).selfdestructed }) = s.accounts := by
        rw [modAt_modAt]
        apply modAt_self
        simp
      simp [destroyStep, hat, undo, revertEntry, List.drop_left, h1, h2]

theorem selfdestruct_state (a target : Nat) (s : Journal) :
    (selfdestruct a target s).2 = destroyStep a target ((load_account target s).2) := rfl

theorem reversible_selfdestruct (a target : Nat) :
    Reversible (fun s => (selfdestruct a target s).2) :=
  Reversible.comp (reversible_load_account target) (reversible_destroyStep a target)

theorem reversible_applyOp (op : JOp) :
    Reversible (fun s => applyOp op s) := by
  cases op with
  | load a => exact reversible_load_account a
  | sloadOp a k => exact reversible_sload a k
  | sstoreOp a k v => exact reversible_sstore a k v
  | tstoreOp a k v => exact reversible_tstore a k v
  | logO l => exact reversible_logOp l
  | touch a => exact reversible_touch_account a
  | create a => exact reversible_mark_created a
  | bump a => exact reversible_nonce_bump a
  | incr a v => exact reversible_balance_incr a v
  | setCode a c h => exact reversible_set_code_with_hash a c h
  | transferOp x y v => exact reversible_transfer x y v
  | destroy a t => exact reversible_selfdestruct a t

theorem reversible_applyOps (l : List JOp) :
    Reversible (fun s => applyOps l s) := by
  induction l with
  | nil => exact reversible_id
  | cons op l ih =>
      exact @Reversible.comp (fun s => applyOp op s) (fun s => applyOps l s)
        (reversible_applyOp op) ih

theorem reversible_checkpoint_state : Reversible (fun s => (checkpoint s).2) := by
  constructor
  · intro s
    exact ⟨[], by simp [checkpoint]⟩
  · intro s
    simp [checkpoint, List.drop_length, undo_nil]

theorem reversible_checkpoint_commit : Reversible (fun s => checkpoint_commit s) := by
  constructor
  · intro s
    exact ⟨[], by simp [checkpoint_commit]⟩
  · intro s
    simp [checkpoint_commit, List.drop_length, undo_nil]

theorem applyOp_depth (op : JOp) (s : Journal) : (applyOp op s).depth = s.depth := by
  cases op <;>
    simp [applyOp, load_account, sload, slotWarmStep, sstore, sstoreStep, tstore, logOp,
      touch_account, mark_created, nonce_bump, balance_incr, set_code_with_hash, transfer,
      selfdestruct, destroyStep] <;>
    split_ifs <;> simp

theorem applyOps_depth (l : List JOp) (s : Journal) : (applyOps l s).depth = s.depth := by
  induction l generalizing s with
  | nil => rfl
  | cons op l ih =>
      rw [show applyOps (op :: l) s = applyOps l (applyOp op s) from rfl, ih, applyOp_depth]

theorem revert_checkpoint_of_reversible (f : Journal → Journal) (hf : Reversible f)
    (s : Journal) :
    checkpoint_revert (checkpoint s).1 (f (checkpoint s).2)
      = { s with depth := (f (checkpoint s).2).depth - 1 } := by
  obtain ⟨hfa, hfu⟩ := hf
  obtain ⟨es, hes⟩ := hfa { s with depth := s.depth + 1 }
  have hes' : (f { s with depth := s.depth + 1 }).journal = s.journal ++ es := hes
  have hu := hfu { s with depth := s.depth + 1 }
  have hdrop : (f { s with depth := s.depth + 1 }).journal.drop s.journal.length = es := by
    rw [hes']
    exact List.drop_left _ _
  have htake : (f { s with depth := s.depth + 1 }).journal.take s.journal.length = s.journal := by
    rw [hes']
    exact List.take_left _ _
  rw [show ({ s with depth := s.depth + 1 } : Journal).journal = s.journal from rfl, hdrop] at hu
  show checkpoint_revert { log_i := s.logs.length, journal_i := s.journal.length }
      (f { s with depth := s.depth + 1 })
    = { s with depth := (f { s with depth := s.depth + 1 }).depth - 1 }
  simp only [checkpoint_revert, hdrop, hu, htake, List.take_length]

/-- C1: for every sequence of state mutations performed between a call to
`checkpoint` returning token C and `checkpoint_revert C`, the journal
state after the revert — account map, storage slots, transient storage,
warm-set, logs, journal log and depth — equals the state immediately
before `checkpoint` was called (full inverse property). -/
theorem journal_checkpoint_revert_inverse (s : Journal) (l : List JOp) :
    checkpoint_revert (checkpoint s).1 (applyOps l (checkpoint s).2) = s := by
  have h := revert_checkpoint_of_reversible (fun t => applyOps l t) (reversible_applyOps l) s
  rw [h, applyOps_depth]
  show { s with depth := s.depth + 1 - 1 } = s
  simp

/-- C2: committing an inner checkpoint does not protect its effects from
a later revert of an outer checkpoint — after `checkpoint A; op1;
checkpoint B; op2; checkpoint_commit; checkpoint_revert A` both op1 and
op2 are undone and the state equals the one before checkpoint A, because
`checkpoint_commit` discards no journal entries. -/
theorem nested_commit_outer_revert (s : Journal) (l1 l2 : List JOp) :
    checkpoint_revert (checkpoint s).1
      (checkpoint_commit (applyOps l2 (checkpoint (applyOps l1 (checkpoint s).2)).2)) = s := by
  have h2 := @Reversible.comp (fun t => applyOps l1 t) (fun t => (checkpoint t).2)
    (reversible_applyOps l1) reversible_checkpoint_state
  have h3 := @Reversible.comp (fun t => (checkpoint (applyOps l1 t)).2) (fun t => applyOps l2 t)
    h2 (reversible_applyOps l2)
  have h4 := @Reversible.comp (fun t => applyOps l2 (checkpoint (applyOps l1 t)).2)
    (fun t => checkpoint_commit t) h3 reversible_checkpoint_commit
  have h := revert_checkpoint_of_reversible
    (fun t => checkpoint_commit (applyOps l2 (checkpoint (applyOps l1 t)).2)) h4 s
  rw [h]
  have hd : (checkpoint_commit (applyOps l2
      (checkpoint (applyOps l1 (checkpoint s).2)).2)).depth = s.depth + 1 := by
    show (applyOps l2 (checkpoint (applyOps l1 (checkpoint s).2)).2).depth - 1 = s.depth + 1
    rw [applyOps_depth]
    show (applyOps l1 (checkpoint s).2).depth + 1 - 1 = s.depth + 1
    rw [applyOps_depth]
    rfl
  rw [hd]
  show { s with depth := s.depth + 1 - 1 } = s
  simp

/-- C6: a checkpoint token is exactly the pair of the emitted-log length
and the journal-log length at issuance, and reverting a checkpoint after
which nothing was appended is a no-op — the journal state equals the
state at issuance. -/
theorem checkpoint_token_and_immediate_revert (s : Journal) :
    (checkpoint s).1.log_i = s.logs.length ∧
    (checkpoint s).1.journal_i = s.journal.length ∧
    checkpoint_revert (checkpoint s).1 (checkpoint s).2 = s := by
  refine ⟨rfl, rfl, ?_⟩
  have h := revert_checkpoint_of_reversible (fun t => t) reversible_id s
  rw [h]
  show { s with depth := s.depth + 1 - 1 } = s
  simp

/-- C3: when the source balance is strictly below the amount, `transfer`
returns `Some(OutOfFunds)` and leaves the balances of both accounts
unchanged. -/
theorem transfer_out_of_funds (s : Journal) (source target amount : Nat)
    (h : (s.accounts source).balance < amount) :
    (transfer source target amount s).1 = some TransferError.OutOfFunds ∧
    ((transfer source target amount s).2.accounts source).balance
      = (s.accounts source).balance ∧
    ((transfer source target amount s).2.accounts target).balance
      = (s.accounts target).balance := by
  simp [transfer, h]

/-- Witness for C3 at a concrete state: account 0 holds 5 and 7 is
requested. -/
theorem transfer_out_of_funds_witness :
    (testJournalFunded.accounts 0).balance < 7 ∧
    ((transfer 0 1 7 testJournalFunded).1 = some TransferError.OutOfFunds ∧
      ((transfer 0 1 7 testJournalFunded).2.accounts 0).balance
        = (testJournalFunded.accounts 0).balance ∧
      ((transfer 0 1 7 testJournalFunded).2.accounts 1).balance
        = (testJournalFunded.accounts 1).balance) :=
  ⟨by decide, transfer_out_of_funds testJournalFunded 0 1 7 (by decide)⟩

/-- C4 counterexample: calling `discard_tx` twice in a row does not yield
the same state as calling it once — the transaction id increments on
every call (per the `discard_tx` doc comment in `journaled_state.rs`). -/
theorem discard_tx_twice_counterexample :
    discard_tx (discard_tx testJournal) ≠ discard_tx testJournal := by
  intro h
  have hx := congrArg Journal.txId h
  simp [discard_tx, testJournal] at hx

/-- C4 (amended): `discard_tx` is total and idempotent up to the
transaction id counter — a second call in a row changes nothing except
incrementing the transaction id once more, and a call at a fresh
transaction boundary (no operations since the last boundary) changes
nothing except incrementing the transaction id. -/
theorem discard_tx_idempotent_mod_txid :
    (∀ s : Journal, discard_tx (discard_tx s)
        = { discard_tx s with txId := (discard_tx s).txId + 1 }) ∧
    (∀ s : Journal, freshBoundary s →
        discard_tx s = { s with txId := s.txId + 1 }) := by
  constructor
  · intro s
    simp [discard_tx, undo_nil, List.take_take, Nat.min_self]
  · intro s hs
    obtain ⟨hj, hl, hwa, hws, htr, hd⟩ := hs
    simp [discard_tx, hj, hl, hwa, hws, htr, hd, undo_nil, List.take_length]

/-- Witness for C4's amended theorem at the concrete boundary state. -/
theorem discard_tx_idempotent_mod_txid_witness :
    discard_tx (discard_tx testJournal)
        = { discard_tx testJournal with txId := (discard_tx testJournal).txId + 1 } ∧
    (freshBoundary testJournal ∧
      discard_tx testJournal = { testJournal with txId := testJournal.txId + 1 }) :=
  ⟨discard_tx_idempotent_mod_txid.1 testJournal,
    ⟨⟨rfl, rfl, rfl, rfl, rfl, rfl⟩,
      discard_tx_idempotent_mod_txid.2 testJournal ⟨rfl, rfl, rfl, rfl, rfl, rfl⟩⟩⟩

theorem setAt_true_mono (W : Nat → Bool) (x a : Nat) (h : W a = true) :
    setAt W x true a = true := by
  by_cases hax : a = x <;> simp [setAt, hax, h]

theorem set2At_true_mono (W : Nat → Nat → Bool) (x y a k : Nat) (h : W a k = true) :
    set2At W x y true a k = true := by
  by_cases hx : a = x ∧ k = y <;> simp [set2At, hx, h]

theorem load_account_is_cold (a : Nat) (s : Journal) :
    (load_account a s).1.is_cold = !(s.isWarm a) := by
  by_cases hw : s.isWarm a <;> simp [load_account, hw, StateLoad.new]

theorem load_account_warms (a : Nat) (s : Journal) :
    ((load_account a s).2).isWarm a = true := by
  by_cases hw : s.isWarm a
  · simp [load_account, hw]
  · have hw' : s.warmAccounts a = false ∧ s.precompiles a = false := by
      simp only [Journal.isWarm, Bool.or_eq_true, not_or, Bool.not_eq_true] at hw
      exact hw
    simp [load_account, Journal.isWarm, hw'.1, hw'.2, setAt_apply_same]

theorem load_account_warm_mono (x a : Nat) (s : Journal)
    (h : s.warmAccounts a = true) :
    ((load_account x s).2).warmAccounts a = true := by
  by_cases hw : s.isWarm x
  · simpa [load_account, hw]
  · simp [load_account, hw]
    exact setAt_true_mono _ _ _ h

theorem load_account_warmSlots (x : Nat) (s : Journal) :
    ((load_account x s).2).warmSlots = s.warmSlots := by
  by_cases hw : s.isWarm x <;> simp [load_account, hw]

theorem slotWarmStep_warmAccounts (x k : Nat) (t : Journal) :
    (slotWarmStep x k t).warmAccounts = t.warmAccounts := by
  by_cases h : t.warmSlots x k <;> simp [slotWarmStep, h]

theorem slotWarmStep_warms (x k : Nat) (t : Journal) :
    (slotWarmStep x k t).warmSlots x k = true := by
  by_cases h : t.warmSlots x k <;> simp [slotWarmStep, h, set2At_apply_same]

theorem slotWarmStep_slot_mono (x y a k : Nat) (t : Journal)
    (h : t.warmSlots a k = true) :
    (slotWarmStep x y t).warmSlots a k = true := by
  by_cases hw : t.warmSlots x y
  · simpa [slotWarmStep, hw]
  · simp [slotWarmStep, hw]
    exact set2At_true_mono _ _ _ _ _ h

theorem sload_is_cold (a k : Nat) (s : Journal) :
    (sload a k s).1.is_cold = !(s.warmSlots a k) := by
  show (!(((load_account a s).2).warmSlots a k)) = !(s.warmSlots a k)
  rw [load_account_warmSlots]

theorem applyOp_warm_mono (op : JOp) (s : Journal) (a : Nat)
    (h : s.warmAccounts a = true) : (applyOp op s).warmAccounts a = true := by
  cases op with
  | load x => exact load_account_warm_mono x a s h
  | sloadOp x k =>
      show (slotWarmStep x k ((load_account x s).2)).warmAccounts a = true
      rw [slotWarmStep_warmAccounts]
      exact load_account_warm_mono x a s h
  | sstoreOp x k v =>
      show (slotWarmStep x k ((load_account x s).2)).warmAccounts a = true
      rw [slotWarmStep_warmAccounts]
      exact load_account_warm_mono x a s h
  | tstoreOp x k v => exact h
  | logO l => exact h
  | touch x =>
      by_cases ht : (s.accounts x).touched <;> simp [applyOp, touch_account, ht, h]
  | create x =>
      by_cases ht : (s.accounts x).created <;> simp [applyOp, mark_created, ht, h]
  | bump x => exact h
  | incr x v => exact h
  | setCode x c hh => exact h
  | transferOp x y v =>
      show ((transfer x y v s).2).warmAccounts a = true
      by_cases h1 : (s.accounts x).balance < v
      · simp [transfer, h1, h]
      · by_cases h2 : uint256Bound ≤ ((modAt s.accounts x
            (fun acc => { acc with balance := acc.balance - v })) y).balance + v
        · simp [transfer, h1, h2, h]
        · simp [transfer, h1, h2, h]
  | destroy x t =>
      show (destroyStep x t ((load_account t s).2)).warmAccounts a = true
      exact load_account_warm_mono t a s h

theorem applyOp_slot_mono (op : JOp) (s : Journal) (a k : Nat)
    (h : s.warmSlots a k = true) : (applyOp op s).warmSlots a k = true := by
  cases op with
  | load x =>
      show ((load_account x s).2).warmSlots a k = true
      rw [load_account_warmSlots]
      exact h
  | sloadOp x y =>
      show (slotWarmStep x y ((load_account x s).2)).warmSlots a k = true
      apply slotWarmStep_slot_mono
      rw [load_account_warmSlots]
      exact h
  | sstoreOp x y v =>
      show (slotWarmStep x y ((load_account x s).2)).warmSlots a k = true
      apply slotWarmStep_slot_mono
      rw [load_account_warmSlots]
      exact h
  | tstoreOp x y v => exact h
  | logO l => exact h
  | touch x =>
      by_cases ht : (s.accounts x).touched <;> simp [applyOp, touch_account, ht, h]
  | create x =>
      by_cases ht : (s.accounts x).created <;> simp [applyOp, mark_created, ht, h]
  | bump x => exact h
  | incr x v => exact h
  | setCode x c hh => exact h
  | transferOp x y v =>
      show ((transfer x y v s).2).warmSlots a k = true
      by_cases h1 : (s.accounts x).balance < v
      · simp [transfer, h1, h]
      · by_cases h2 : uint256Bound ≤ ((modAt s.accounts x
            (fun acc => { acc with balance := acc.balance - v })) y).balance + v
        · simp [transfer, h1, h2, h]
        · simp [transfer, h1, h2, h]
  | destroy x t =>
      show (destroyStep x t ((load_account t s).2)).warmSlots a k = true
      show ((load_account t s).2).warmSlots a k = true
      rw [load_account_warmSlots]
      exact h

theorem applyOp_precompiles (op : JOp) (s : Journal) :
    (applyOp op s).precompiles = s.precompiles := by
  cases op <;>
    simp [applyOp, load_account, sload, slotWarmStep, sstore, sstoreStep, tstore, logOp,
      touch_account, mark_created, nonce_bump, balance_incr, set_code_with_hash, transfer,
      selfdestruct, destroyStep] <;>
    split_ifs <;> simp

theorem applyOp_isWarm_mono (op : JOp) (s : Journal) (a : Nat)
    (h : s.isWarm a = true) : (applyOp op s).isWarm a = true := by
  unfold Journal.isWarm at h ⊢
  rw [applyOp_precompiles]
  rcases Bool.or_eq_true_iff.mp h with hw | hp
  · rw [applyOp_warm_mono op s a hw]
    simp
  · simp [hp]

theorem applyOps_isWarm_mono (l : List JOp) (s : Journal) (a : Nat)
    (h : s.isWarm a = true) : (applyOps l s).isWarm a = true := by
  induction l generalizing s with
  | nil => exact h
  | cons op l ih =>
      show (applyOps l (applyOp op s)).isWarm a = true
      exact ih (applyOp op s) (applyOp_isWarm_mono op s a h)

theorem applyOps_slot_mono (l : List JOp) (s : Journal) (a k : Nat)
    (h : s.warmSlots a k = true) : (applyOps l s).warmSlots a k = true := by
  induction l generalizing s with
  | nil => exact h
  | cons op l ih =>
      show (applyOps l (applyOp op s)).warmSlots a k = true
      exact ih (applyOp op s) (applyOp_slot_mono op s a k h)

/-- C5 (amended): within one transaction the first load of an address or
slot after a transaction boundary is cold (with permanently-warm
precompile addresses the exception), and every subsequent load is warm as
long as the intervening operations are frame mutations — a
`checkpoint_revert` that undoes the warming entry re-colds the item, so
the original claim holds only in the absence of such a revert;
`commit_tx`/`discard_tx` reset the per-transaction warm state, and
addresses registered via `warm_precompiles` always load warm. -/
theorem warm_cold_tracking :
    (∀ (s : Journal) (a : Nat),
      (load_account a (commit_tx s)).1.is_cold = !(s.precompiles a)) ∧
    (∀ (s : Journal) (a : Nat),
      (load_account a (discard_tx s)).1.is_cold = !(s.precompiles a)) ∧
    (∀ (s : Journal) (a k : Nat),
      (sload a k (commit_tx s)).1.is_cold = true) ∧
    (∀ (s : Journal) (a k : Nat),
      (sload a k (discard_tx s)).1.is_cold = true) ∧
    (∀ (s : Journal) (a : Nat) (l : List JOp),
      (load_account a (applyOps l ((load_account a s).2))).1.is_cold = false) ∧
    (∀ (s : Journal) (a k : Nat) (l : List JOp),
      (sload a k (applyOps l ((sload a k s).2))).1.is_cold = false) ∧
    (∀ (s : Journal) (L : List Nat) (a : Nat), a ∈ L →
      (load_account a (warm_precompiles L s)).1.is_cold = false) ∧
    (∀ (s : Journal) (L : List Nat) (a : Nat), a ∈ L →
      (load_account a (commit_tx (warm_precompiles L s))).1.is_cold = false) := by
  refine ⟨?_, ?_, ?_, ?_, ?_, ?_, ?_, ?_⟩
  · intro s a
    rw [load_account_is_cold]
    simp [commit_tx, Journal.isWarm]
  · intro s a
    rw [load_account_is_cold]
    simp [discard_tx, Journal.isWarm]
  · intro s a k
    rw [sload_is_cold]
    simp [commit_tx]
  · intro s a k
    rw [sload_is_cold]
    simp [discard_tx]
  · intro s a l
    rw [load_account_is_cold, applyOps_isWarm_mono l _ a (load_account_warms a s)]
    rfl
  · intro s a k l
    rw [sload_is_cold]
    have h1 : ((sload a k s).2).warmSlots a k = true := slotWarmStep_warms a k _
    rw [applyOps_slot_mono l _ a k h1]
    rfl
  · intro s L a ha
    rw [load_account_is_cold]
    have hp : (warm_precompiles L s).precompiles a = true := by
      simp [warm_precompiles, ha]
    simp [Journal.isWarm, hp]
  · intro s L a ha
    rw [load_account_is_cold]
    have hp : (commit_tx (warm_precompiles L s)).precompiles a = true := by
      simp [commit_tx, warm_precompiles, ha]
    simp [Journal.isWarm, hp]

/-- Witness for C5's amended theorem at concrete inputs. -/
theorem warm_cold_tracking_witness :
    (load_account 5 (commit_tx testJournal)).1.is_cold = !(testJournal.precompiles 5) ∧
    ((7 : Nat) ∈ [7] ∧
      (load_account 7 (warm_precompiles [7] testJournal)).1.is_cold = false) ∧
    ((7 : Nat) ∈ [7] ∧
      (load_account 7 (commit_tx (warm_precompiles [7] testJournal))).1.is_cold = false) :=
  ⟨warm_cold_tracking.1 testJournal 5,
    ⟨by decide, warm_cold_tracking.2.2.2.2.2.2.1 testJournal [7] 7 (by decide)⟩,
    ⟨by decide, warm_cold_tracking.2.2.2.2.2.2.2 testJournal [7] 7 (by decide)⟩⟩

/-- C5 counterexample: after a first (cold) load of address 0, a
`checkpoint_revert` undoes the warming, so a subsequent load in the same
transaction — no `commit_tx` or `discard_tx` in between — is cold again,
contradicting the claim that every subsequent load reports
`is_cold = false` until a transaction boundary resets the warm state. -/
theorem warm_reset_by_revert_counterexample :
    (load_account 0 ((checkpoint testJournal).2)).1.is_cold = true ∧
    (load_account 0 (checkpoint_revert (checkpoint testJournal).1
        ((load_account 0 ((checkpoint testJournal).2)).2))).1.is_cold = true := by
  exact ⟨rfl, rfl⟩

/-- C7: after a successful `load_account_code` the loaded account's code
field is populated, so the unwrap inside the default `code` accessor
never hits its panic path, and `code` returns the account's original code
bytes together with the load's cold flag. -/
theorem load_account_code_populates_and_code (a : Nat) (s : Journal) :
    ((load_account_code a s).1.data.code).isSome = true ∧
    (code_accessor a s).1 = some (StateLoad.new
        (((load_account_code a s).1.data.code.getD { bytes := [] }).original_bytes)
        ((load_account_code a s).1.is_cold)) := by
  cases hc : (load_account a s).1.data.code with
  | some c =>
      constructor
      · simp [load_account_code, hc, StateLoad.new]
      · simp [code_accessor, load_account_code, hc, StateLoad.new]
  | none =>
      constructor
      · simp [load_account_code, hc, StateLoad.new]
      · simp [code_accessor, load_account_code, hc, StateLoad.new]

/-- C10: if the account loaded by `load_account_code` is empty, the
default `code_hash` accessor returns hash zero (`B256::ZERO`), otherwise
the account's stored code hash, in both cases with the load's cold
flag. -/
theorem code_hash_zero_on_empty (a : Nat) (s : Journal) :
    (code_hash_accessor a s).1 = some (StateLoad.new
        (if (load_account_code a s).1.data.is_empty then 0
          else (load_account_code a s).1.data.codeHash)
        ((load_account_code a s).1.is_cold)) := by
  cases hc : (load_account a s).1.data.code with
  | some c =>
      simp only [code_hash_accessor, load_account_code, hc, StateLoad.new]
      split_ifs with he <;> simp [StateLoad.new]
  | none =>
      simp only [code_hash_accessor, load_account_code, hc, StateLoad.new]
      split_ifs with he <;> simp [StateLoad.new]

/-- C8: mapping a `StateLoad` applies the function to the data and never
changes the cold-load flag. -/
theorem stateLoad_map_preserves_cold {T B : Type} (s : StateLoad T) (f : T → B) :
    (s.map f).data = f s.data ∧ (s.map f).is_cold = s.is_cold :=
  ⟨rfl, rfl⟩

/-- C9: `map_haltreason` leaves `Success` and `Revert` unchanged in all
fields and applies the function only to the reason of a `Halt`;
consequently `gas_used`, `is_success` and `is_halt` are invariant under
the mapping. -/
theorem map_haltreason_preserves_shape {H O : Type} (op : H → O) :
    (∀ (r : SuccessReason) (gu gr : Nat) (lg : List Nat) (out : Output),
      (ExecutionResult.Success r gu gr lg out : ExecutionResult H).map_haltreason op
        = ExecutionResult.Success r gu gr lg out) ∧
    (∀ (gu : Nat) (out : List Nat),
      (ExecutionResult.Revert gu out : ExecutionResult H).map_haltreason op
        = ExecutionResult.Revert gu out) ∧
    (∀ (h : H) (gu : Nat),
      (ExecutionResult.Halt h gu).map_haltreason op = ExecutionResult.Halt (op h) gu) ∧
    (∀ r : ExecutionResult H, (r.map_haltreason op).gas_used = r.gas_used) ∧
    (∀ r : ExecutionResult H, (r.map_haltreason op).is_success = r.is_success) ∧
    (∀ r : ExecutionResult H, (r.map_haltreason op).is_halt = r.is_halt) := by
  refine ⟨fun _ _ _ _ _ => rfl, fun _ _ => rfl, fun _ _ => rfl, ?_, ?_, ?_⟩ <;>
    intro r <;> cases r <;> rfl
